import Mathlib

/-!
Verification development for the SqlPlanForDummies query bridge
(`src-tauri/src/db/`: `connection.rs`, `encryption.rs`, `commands.rs`).

Modelling conventions:
* Rust `String`/`&str` values are modelled by Lean `String`.  The Rust code
  indexes strings by UTF-8 byte offsets; the model indexes by characters.
  For the ASCII metacharacters the rewriter manipulates the two coincide
  (Rust `to_lowercase`/`is_whitespace` are modelled ASCII-character-wise).
* The tiberius wire client is external; a row is modelled by the outcomes
  of its type-directed `try_get` accessors (`Err` = type mismatch,
  `Ok(None)` = present-but-null, `Ok(Some v)` = present value), and a live
  session by a deterministic responder `DbSession` mapping each issued
  statement to its outcome.  The list of statements issued is returned as
  an observation trace alongside each result.
* Wall-clock timing is external: the rendered elapsed time and the
  millisecond count are inputs to the orchestrator.
* `i64`/`i32` counters are modelled by `Int`, `u8` by `Nat`; no modelled
  operation can overflow the machine widths involved.
-/

/-! ## Character-level string helpers (models of the Rust `str` methods used) -/

/-- Model of Rust `char::to_lowercase` restricted to ASCII letters. -/
def lowerChar (c : Char) : Char :=
  if 'A' ≤ c ∧ c ≤ 'Z' then Char.ofNat (c.toNat + 32) else c

/-- Model of Rust `str::to_lowercase` (ASCII-character-wise). -/
def strLower (s : String) : String := ⟨s.data.map lowerChar⟩

/-- Trim whitespace characters from both ends of a character list. -/
def trimChars (l : List Char) : List Char :=
  ((l.dropWhile Char.isWhitespace).reverse.dropWhile Char.isWhitespace).reverse

/-- Model of Rust `str::trim`. -/
def strTrim (s : String) : String := ⟨trimChars s.data⟩

/-- Model of Rust `str::trim_start`. -/
def strTrimStart (s : String) : String := ⟨s.data.dropWhile Char.isWhitespace⟩

/-- Model of Rust `str::trim_end_matches(';')`. -/
def strTrimEndSemis (s : String) : String :=
  ⟨(s.data.reverse.dropWhile (· = ';')).reverse⟩

/-- Model of Rust slicing `s[n..]` (character-indexed). -/
def strDrop (s : String) (n : Nat) : String := ⟨s.data.drop n⟩

/-- Accumulator-based splitter behind `splitWs`. -/
def splitWsAux : List Char → List Char → List String
  | [], acc => if acc.isEmpty then [] else [⟨acc.reverse⟩]
  | c :: t, acc =>
      if c.isWhitespace then
        if acc.isEmpty then splitWsAux t [] else (⟨acc.reverse⟩ : String) :: splitWsAux t []
      else splitWsAux t (c :: acc)

/-- Model of Rust `str::split_whitespace` (empty pieces skipped). -/
def splitWs (s : String) : List String := splitWsAux s.data []

/-- Join a list of strings with single spaces (model of `.join(" ")`). -/
def joinSpaces : List String → String
  | [] => ""
  | [s] => s
  | s :: t => s ++ " " ++ joinSpaces t

/-- Join a list of strings with `", "` (model of `.join(", ")`). -/
def joinCommaSp : List String → String
  | [] => ""
  | [s] => s
  | s :: t => s ++ ", " ++ joinCommaSp t

/-- First character index at which `needle` occurs in the list, if any. -/
def findSubAux (needle : List Char) : List Char → Nat → Option Nat
  | [], i => if needle.isEmpty then some i else Option.none
  | h :: t, i =>
      if needle.isPrefixOf (h :: t) then some i else findSubAux needle t (i + 1)

/-- Model of Rust `str::find(pat)` (character-indexed). -/
def strFindSub (hay needle : String) : Option Nat := findSubAux needle.data hay.data 0

/-- Model of Rust `str::contains(pat)`. -/
def strContainsSub (hay needle : String) : Bool := (strFindSub hay needle).isSome

/-- Model of Rust `str::starts_with(pat)`. -/
def strStartsWith (hay pre : String) : Bool := pre.data.isPrefixOf hay.data

/-- A single-quote character, kept out of string literals. -/
def sqc : String := ⟨[Char.ofNat 39]⟩

/-- Model of Rust `str::replace("'", "''")`. -/
def escapeQuotes (s : String) : String :=
  ⟨s.data.foldr (fun c acc => if c = Char.ofNat 39 then c :: c :: acc else c :: acc) []⟩

/-! ## Tiberius row model

A cell records the outcome of each type-directed `try_get::<T>` probe the
code performs: `Option.none` models `Err(_)` (type mismatch), `some
Option.none` models `Ok(None)` (present but null), `some (some v)` models
`Ok(Some v)`.  Date/time (`chrono::NaiveDateTime`) and UUID values are only
ever observed through their `to_string` rendering, so the model carries
that rendering. -/

structure Cell where
  tryStr : Option (Option String) := Option.none
  tryI32 : Option (Option Int) := Option.none
  tryI64 : Option (Option Int) := Option.none
  tryI16 : Option (Option Int) := Option.none
  tryF32 : Option (Option Nat) := Option.none
  tryF64 : Option (Option Nat) := Option.none
  tryU8 : Option (Option Nat) := Option.none
  tryBool : Option (Option Bool) := Option.none
  tryDt : Option (Option String) := Option.none
  tryUuid : Option (Option String) := Option.none
deriving DecidableEq

/-- A wire row: the column descriptors (names, in server order) and cells. -/
structure Row where
  columns : List String
  cells : List Cell
deriving DecidableEq

/-- A `try_get` on an out-of-range ordinal reports a mismatch. -/
def cellAt (r : Row) (i : Nat) : Cell := (r.cells.getD i {})

/-- Model of `row.try_get::<&str>(i)`. -/
def rowTryStr (r : Row) (i : Nat) : Option (Option String) := (cellAt r i).tryStr

/-- Model of `row.try_get::<u8>(i)`. -/
def rowTryU8 (r : Row) (i : Nat) : Option (Option Nat) := (cellAt r i).tryU8

/-- Model of `row.try_get::<i32>(i)`. -/
def rowTryI32 (r : Row) (i : Nat) : Option (Option Int) := (cellAt r i).tryI32

/-- The portable JSON-like value model (`serde_json::Value` as used here).
`float` carries the bit pattern of the wire value; the decoder never
computes with it. -/
inductive JsonValue where
  | null
  | str (s : String)
  | int (n : Int)
  | nat (n : Nat)
  | float (bits : Nat)
  | bool (b : Bool)
deriving DecidableEq

/-! ## Value Decoder (`extract_row_values`, connection.rs:484-559) -/

/-- One cell's decoding: the nested `try_get` cascade of the source,
transliterated match-for-match. -/
def decode_cell (c : Cell) (colName : String) : JsonValue :=
  match c.tryStr with
  | some (some v) => .str v
  | some Option.none => .null
  | Option.none =>
    match c.tryI32 with
    | some (some v) => .int v
    | some Option.none => .null
    | Option.none =>
      match c.tryI64 with
      | some (some v) => .int v
      | some Option.none => .null
      | Option.none =>
        match c.tryI16 with
        | some (some v) => .int v
        | some Option.none => .null
        | Option.none =>
          match c.tryF32 with
          | some (some v) => .float v
          | some Option.none => .null
          | Option.none =>
            match c.tryF64 with
            | some (some v) => .float v
            | some Option.none => .null
            | Option.none =>
              match c.tryU8 with
              | some (some v) => .nat v
              | some Option.none => .null
              | Option.none =>
                match c.tryBool with
                | some (some v) => .bool v
                | some Option.none => .null
                | Option.none =>
                  match c.tryDt with
                  | some (some v) => .str v
                  | some Option.none => .null
                  | Option.none =>
                    match c.tryUuid with
                    | some (some v) => .str v
                    | some Option.none => .null
                    | Option.none =>
                      .str ("[Unsupported type: " ++ colName ++ "]")

/-- Model of `extract_row_values`: decode cell `i` for every `i < columns.len()`. -/
def extract_row_values (row : Row) : List JsonValue :=
  (List.range row.columns.length).map
    (fun i => decode_cell (cellAt row i) (row.columns.getD i ""))

/-! Specification-side formulation of the decoder: an ordered list of typed
probes evaluated in a fixed priority order, taking the first probe that
succeeds, short-circuiting to null on a present-but-null report, and
falling back to the placeholder naming the column. -/

/-- Outcome of one typed probe, as the specification describes it. -/
inductive ProbeResult where
  | mismatch
  | nullVal
  | val (v : JsonValue)

/-- Lift a `try_get` outcome to a `ProbeResult` via a rendering function. -/
def probeOf {α : Type} (o : Option (Option α)) (f : α → JsonValue) : ProbeResult :=
  match o with
  | Option.none => .mismatch
  | some Option.none => .nullVal
  | some (some v) => .val (f v)

/-- The fixed probe order of the specification: text, 32-bit integer,
64-bit integer, 16-bit integer, single float, double float, unsigned byte,
boolean, date/time, unique identifier. -/
def cellProbes (c : Cell) : List ProbeResult :=
  [ probeOf c.tryStr (fun v => .str v),
    probeOf c.tryI32 (fun v => .int v),
    probeOf c.tryI64 (fun v => .int v),
    probeOf c.tryI16 (fun v => .int v),
    probeOf c.tryF32 (fun v => .float v),
    probeOf c.tryF64 (fun v => .float v),
    probeOf c.tryU8 (fun v => .nat v),
    probeOf c.tryBool (fun v => .bool v),
    probeOf c.tryDt (fun v => .str v),
    probeOf c.tryUuid (fun v => .str v) ]

/-- Take the first probe that resolves: a value wins, a present-but-null
report short-circuits to null, a mismatch moves on; the fallback applies
when every probe mismatches. -/
def firstHit : List ProbeResult → JsonValue → JsonValue
  | [], fb => fb
  | .mismatch :: t, fb => firstHit t fb
  | .nullVal :: _, _ => .null
  | .val v :: _, _ => v

/-- The Value Decoder as the specification words it. -/
def spec_decode_cell (c : Cell) (colName : String) : JsonValue :=
  firstHit (cellProbes c) (.str ("[Unsupported type: " ++ colName ++ "]"))

theorem decode_cell_eq_spec (c : Cell) (nm : String) :
    decode_cell c nm = spec_decode_cell c nm := by
  obtain ⟨f1, f2, f3, f4, f5, f6, f7, f8, f9, f10⟩ := c
  rcases f1 with _ | (_ | v) <;> try rfl
  rcases f2 with _ | (_ | v) <;> try rfl
  rcases f3 with _ | (_ | v) <;> try rfl
  rcases f4 with _ | (_ | v) <;> try rfl
  rcases f5 with _ | (_ | v) <;> try rfl
  rcases f6 with _ | (_ | v) <;> try rfl
  rcases f7 with _ | (_ | v) <;> try rfl
  rcases f8 with _ | (_ | v) <;> try rfl
  rcases f9 with _ | (_ | v) <;> try rfl
  rcases f10 with _ | (_ | v) <;> rfl

/-! ## Wire session model

`simple_query(stmt)` followed by `into_results()` has three outcomes:
result sets, a submission error, or a retrieval error.  A live session is
a deterministic responder from statement text to outcome. -/

inductive QueryOutcome where
  | ok (resultSets : List (List Row))
  | submitErr (msg : String)
  | retrieveErr (msg : String)

/-- A live, authenticated session, observed through its responses. -/
def DbSession : Type := String → QueryOutcome

/-- Whether an outcome is one of the two failure forms. -/
def outcomeFails : QueryOutcome → Bool
  | .ok _ => false
  | .submitErr _ => true
  | .retrieveErr _ => true

/-! ## Query Rewriter (`rewrite_query_with_date_cast`, connection.rs:21-203) -/

/-- connection.rs:34-36: the permissive `SELECT * FROM` shape detector. -/
def has_select_star_from (sql : String) : Bool :=
  let sql_trimmed := strTrim sql
  let sql_lower := strLower sql_trimmed
  let normalized := joinSpaces (splitWs sql_lower)
  strStartsWith normalized "select * from" || strStartsWith normalized "select*from" ||
    (strContainsSub sql_lower "select" && strContainsSub sql_lower "*" &&
      strContainsSub sql_lower "from")

/-- connection.rs:44-59: the token following `from`, trimmed of trailing
semicolons; `Option.none` collapses the two early-return paths (no `from`
found, empty table name), both of which return the original SQL. -/
def extracted_table (sql : String) : Option String :=
  let sql_trimmed := strTrim sql
  let sql_lower := strLower sql_trimmed
  match strFindSub sql_lower "from" with
  | Option.none => Option.none
  | some pos =>
    let after_from := strTrim (strDrop sql_trimmed (pos + 4))
    let table_name := strTrimEndSemis ((splitWs after_from).headD "")
    if table_name = "" then Option.none else some table_name

/-- connection.rs:66-76: the catalog metadata query for a table name. -/
def metadata_query_for (table_name : String) : String :=
  "SELECT c.name, c.system_type_id, c.user_type_id, t.name as type_name, st.name as system_type_name " ++
  "FROM sys.columns c " ++
  "INNER JOIN sys.objects o ON c.object_id = o.object_id " ++
  "INNER JOIN sys.types t ON c.user_type_id = t.user_type_id " ++
  "INNER JOIN sys.types st ON c.system_type_id = st.user_type_id " ++
  "WHERE LOWER(o.name) = LOWER(" ++ sqc ++ escapeQuotes table_name ++ sqc ++ ") " ++
  "AND o.type IN (" ++ sqc ++ "U" ++ sqc ++ ", " ++ sqc ++ "V" ++ sqc ++ ") " ++
  "ORDER BY c.column_id"

/-- connection.rs:81-85: the debug listing query (its results are ignored). -/
def debug_query_for (table_name : String) : String :=
  "SELECT name, type_desc FROM sys.objects " ++
  "WHERE LOWER(name) LIKE LOWER(" ++ sqc ++ "%" ++ escapeQuotes table_name ++ "%" ++ sqc ++ ") " ++
  "AND type IN (" ++ sqc ++ "U" ++ sqc ++ ", " ++ sqc ++ "V" ++ sqc ++ ")"

/-- connection.rs:128-173: the column-list entry contributed by one
metadata row, if any (`Ok(Some name)` required), together with whether it
is a cast entry. -/
def column_entry (row : Row) : Option (String × Bool) :=
  match rowTryStr row 0 with
  | some (some col_name) =>
    let system_type_id := (rowTryU8 row 1).bind id
    let user_type_id := (rowTryI32 row 2).bind id
    let system_type_name := (rowTryStr row 4).bind id
    let nc : Bool × String :=
      if system_type_id = some 40 then (true, "datetime")
      else
        match system_type_id, user_type_id, system_type_name with
        | some s, some u, some nm => if (s : Int) ≠ u then (true, nm) else (false, "")
        | _, _, _ => (false, "")
    some (if nc.1 ∧ nc.2 ≠ "" then
            ("CAST([" ++ col_name ++ "] AS " ++ nc.2 ++ ") AS [" ++ col_name ++ "]", true)
          else ("[" ++ col_name ++ "]", false))
  | _ => Option.none

/-- connection.rs:123-175: fold every metadata row into the column list
and the `has_type_casting` flag. -/
def processColumns (sets : List (List Row)) : List String × Bool :=
  sets.foldl (fun acc rs =>
    rs.foldl (fun a row =>
      match column_entry row with
      | some (s, b) => (a.1 ++ [s], a.2 || b)
      | Option.none => a) acc) ([], false)

/-- Model of `rewrite_query_with_date_cast`, with the issued statements as trace.
All paths return `.ok`; catalog failures degrade to the original SQL. -/
def rewrite_query_with_date_cast (db : DbSession) (sql : String) :
    Except String String × List String :=
  let sql_trimmed := strTrim sql
  let sql_lower := strLower sql_trimmed
  if has_select_star_from sql then
    match extracted_table sql with
    | Option.none => (.ok sql, [])
    | some table_name =>
      let tr := [debug_query_for table_name, metadata_query_for table_name]
      match db (metadata_query_for table_name) with
      | .submitErr _ => (.ok sql, tr)
      | .retrieveErr _ => (.ok sql, tr)
      | .ok result_sets =>
        let pc := processColumns result_sets
        if pc.2 ∧ pc.1 ≠ [] then
          match strFindSub sql_lower "from" with
          | Option.none => (.ok sql, tr)
          | some from_pos =>
            let after_from := strTrimStart (strDrop sql_trimmed (from_pos + 4))
            let table_end_pos :=
              ((strFindSub after_from table_name).map (fun p => p + table_name.length)).getD 0
            let rest_of_query := strDrop after_from table_end_pos
            (.ok ("SELECT " ++ joinCommaSp pc.1 ++ " FROM " ++ table_name ++ rest_of_query), tr)
        else (.ok sql, tr)
  else (.ok sql, [])

/-! ## Execution Orchestrator (`DbConnection::execute_query`, connection.rs:233-481) -/

/-- Plan-capture mode (types.rs:48-52). -/
inductive PlanType where
  | None
  | Estimated
  | Actual

/-- The tabular result (types.rs:56-63). -/
structure QueryResult where
  columns : List String
  rows : List (List JsonValue)
  messages : List String
  plan_xml : Option String
  duration_ms : Nat
  rows_affected : Int
deriving DecidableEq

/-- connection.rs:253: the advisory message attached after a rewrite. -/
def castNote : String :=
  "Note: Alias types and date columns automatically cast to their base types for compatibility."

/-- connection.rs:471: the elapsed-time diagnostic; the rendered `{:.2}`
figure is an external input. -/
def timeMsg (elapsedDisplay : String) : String :=
  "Execution time: " ++ elapsedDisplay ++ "ms"

/-- connection.rs:273-281: the plan-mode remediation text for type errors. -/
def planUnsupportedMsg (err_msg : String) : String :=
  "Query contains unsupported column types that cannot be used with execution plans.\n" ++
  "Unsupported types include: date, geometry, geography, hierarchyid, and certain CLR types.\n" ++
  "\nWorkarounds:\n" ++
  "• Cast date columns to datetime: SELECT CAST(LicenseValidTo AS datetime) AS LicenseValidTo\n" ++
  "• Exclude these columns from your SELECT statement\n" ++
  "• Use " ++ sqc ++ "No Plan" ++ sqc ++ " mode (though unsupported types will still cause errors)\n" ++
  "\nOriginal error: " ++ err_msg

/-- connection.rs:414-421: the no-plan-mode remediation text. -/
def clientUnsupportedMsg (err_msg : String) : String :=
  "Query contains unsupported column types that are not supported by the database client.\n" ++
  "Unsupported types include: date, geometry, geography, hierarchyid, and certain CLR types.\n" ++
  "\nWorkarounds:\n" ++
  "• Cast date columns to datetime: SELECT CAST(LicenseValidTo AS datetime) AS LicenseValidTo\n" ++
  "• Exclude these columns from your SELECT statement\n" ++
  "\nOriginal error: " ++ err_msg

/-- Submission-error mapping in Estimated/Actual mode (connection.rs:270-285). -/
def wrapSubmitPlan (e : String) : String :=
  if strContainsSub e "column type" then planUnsupportedMsg e else "Query failed: " ++ e

/-- Retrieval-error mapping in Estimated/Actual mode (connection.rs:290-305). -/
def wrapRetrievePlan (e : String) : String :=
  if strContainsSub e "column type" then planUnsupportedMsg e else e

/-- Submission-error mapping in None mode (connection.rs:410-425). -/
def wrapSubmitClient (e : String) : String :=
  if strContainsSub e "column type" then clientUnsupportedMsg e else "Query failed: " ++ e

/-- Retrieval-error mapping in None mode (connection.rs:430-444). -/
def wrapRetrieveClient (e : String) : String :=
  if strContainsSub e "column type" then clientUnsupportedMsg e else e

/-- connection.rs:308-314: the Estimated-mode plan scan; every row whose
first cell yields a present string overwrites `plan_xml`. -/
def scanPlan (sets : List (List Row)) : Option String :=
  sets.foldl (fun acc rs =>
    rs.foldl (fun a row =>
      match rowTryStr row 0 with
      | some (some xml) => some xml
      | _ => a) acc) Option.none

/-- The first cell of a row as a present string, if it is one. -/
def firstCellText (row : Row) : Option String :=
  match rowTryStr row 0 with
  | some (some x) => some x
  | _ => Option.none

/-- connection.rs:459-463: push one decoded row, bump `rows_affected`. -/
def noneRowStep (b : List (List JsonValue) × Int) (row : Row) :
    List (List JsonValue) × Int :=
  (b.1 ++ [extract_row_values row], b.2 + 1)

/-- connection.rs:446-464: one result set of the None-mode loop — an empty
set is skipped, otherwise columns are captured from its first row when
still empty and every row is decoded and counted. -/
def noneSetStep (acc : List String × List (List JsonValue) × Int) (rs : List Row) :
    List String × List (List JsonValue) × Int :=
  match rs with
  | [] => acc
  | r0 :: _ =>
    let cols := if acc.1.isEmpty then r0.columns else acc.1
    let rr := rs.foldl noneRowStep (acc.2.1, acc.2.2)
    (cols, rr.1, rr.2)

/-- connection.rs:446-464: the None-mode result assembly.
Returns (columns, rows, rows_affected). -/
def assembleNone (sets : List (List Row)) : List String × List (List JsonValue) × Int :=
  sets.foldl noneSetStep ([], [], 0)

/-- The column list the None-mode loop ends up capturing: the columns of
the first row of the first non-empty result set whose first row has a
non-empty column list. -/
def capturedColumns : List (List Row) → List String
  | [] => []
  | [] :: rest => capturedColumns rest
  | (r0 :: _) :: rest =>
    if r0.columns.isEmpty then capturedColumns rest else r0.columns

/-- connection.rs:376-392: the Actual-mode result-set walk — a first cell
containing the plan marker is captured and its set skipped, every other
non-empty set adds its row count. -/
def walkActual (sets : List (List Row)) : Option String × Int :=
  sets.foldl (fun acc rs =>
    match rs with
    | [] => acc
    | first_row :: _ =>
      match firstCellText first_row with
      | some xml =>
        if strContainsSub xml "ShowPlanXML" then (some xml, acc.2)
        else (acc.1, acc.2 + (rs.length : Int))
      | Option.none => (acc.1, acc.2 + (rs.length : Int))) (Option.none, 0)

/-- The Estimated-mode arm (connection.rs:257-325). -/
def estimatedBranch (db : DbSession) (sql2 : String) (tr baseMsgs : List String)
    (elapsedDisplay : String) (durationMs : Nat) :
    Except String QueryResult × List String :=
  let t1 := tr ++ ["SET SHOWPLAN_XML ON"]
  match db "SET SHOWPLAN_XML ON" with
  | .submitErr e => (.error ("Failed to enable SHOWPLAN_XML: " ++ e), t1)
  | .retrieveErr e => (.error e, t1)
  | .ok _ =>
    let t2 := t1 ++ [sql2]
    match db sql2 with
    | .submitErr e => (.error (wrapSubmitPlan e), t2)
    | .retrieveErr e => (.error (wrapRetrievePlan e), t2)
    | .ok result_sets =>
      let plan := scanPlan result_sets
      let t3 := t2 ++ ["SET SHOWPLAN_XML OFF"]
      match db "SET SHOWPLAN_XML OFF" with
      | .submitErr e => (.error ("Failed to disable SHOWPLAN_XML: " ++ e), t3)
      | .retrieveErr e => (.error e, t3)
      | .ok _ =>
        (.ok { columns := [], rows := [],
               messages := baseMsgs ++ ["Estimated execution plan generated.",
                 timeMsg elapsedDisplay],
               plan_xml := plan, duration_ms := durationMs, rows_affected := 0 }, t3)

/-- The Actual-mode arm (connection.rs:326-406). -/
def actualBranch (db : DbSession) (sql2 : String) (tr baseMsgs : List String)
    (elapsedDisplay : String) (durationMs : Nat) :
    Except String QueryResult × List String :=
  let t1 := tr ++ ["SET STATISTICS XML ON"]
  match db "SET STATISTICS XML ON" with
  | .submitErr e => (.error ("Failed to enable STATISTICS XML: " ++ e), t1)
  | .retrieveErr e => (.error e, t1)
  | .ok _ =>
    let t2 := t1 ++ [sql2]
    match db sql2 with
    | .submitErr e => (.error (wrapSubmitPlan e), t2)
    | .retrieveErr e => (.error (wrapRetrievePlan e), t2)
    | .ok result_sets =>
      let w := walkActual result_sets
      let t3 := t2 ++ ["SET STATISTICS XML OFF"]
      match db "SET STATISTICS XML OFF" with
      | .submitErr e => (.error ("Failed to disable STATISTICS XML: " ++ e), t3)
      | .retrieveErr e => (.error e, t3)
      | .ok _ =>
        (.ok { columns := [], rows := [],
               messages := baseMsgs ++ ["Query executed. " ++ toString w.2 ++
                 " row(s) returned with actual execution plan.", timeMsg elapsedDisplay],
               plan_xml := w.1, duration_ms := durationMs, rows_affected := w.2 }, t3)

/-- The None-mode arm (connection.rs:407-467). -/
def noneBranch (db : DbSession) (sql2 : String) (tr baseMsgs : List String)
    (elapsedDisplay : String) (durationMs : Nat) :
    Except String QueryResult × List String :=
  let t1 := tr ++ [sql2]
  match db sql2 with
  | .submitErr e => (.error (wrapSubmitClient e), t1)
  | .retrieveErr e => (.error (wrapRetrieveClient e), t1)
  | .ok result_sets =>
    let a := assembleNone result_sets
    (.ok { columns := a.1, rows := a.2.1,
           messages := baseMsgs ++ ["Query executed. " ++ toString a.2.2 ++
             " row(s) returned.", timeMsg elapsedDisplay],
           plan_xml := Option.none, duration_ms := durationMs,
           rows_affected := a.2.2 }, t1)

/-- Model of `DbConnection::execute_query`: rewrite, then dispatch on plan mode.
The second component is the trace of statements submitted to the session. -/
def DbConnection.execute_query (db : DbSession) (elapsedDisplay : String)
    (durationMs : Nat) (sql : String) (plan_type : PlanType) :
    Except String QueryResult × List String :=
  match rewrite_query_with_date_cast db sql with
  | (.error e, tr) => (.error e, tr)
  | (.ok sql2, tr) =>
    let baseMsgs := if sql2 ≠ sql then [castNote] else []
    match plan_type with
    | .Estimated => estimatedBranch db sql2 tr baseMsgs elapsedDisplay durationMs
    | .Actual => actualBranch db sql2 tr baseMsgs elapsedDisplay durationMs
    | .None => noneBranch db sql2 tr baseMsgs elapsedDisplay durationMs

/-! ## Command layer (`commands.rs`) -/

/-- A query request (types.rs:41-45). -/
structure QueryRequest where
  sql : String
  timeout_seconds : Option Nat
  plan_type : PlanType

/-- The `execute_query` command (commands.rs:60-67): read the held
connection, fail if absent, otherwise delegate.  Returns the result, the
connection state after the call, and the statements submitted. -/
def Commands.execute_query (state : Option DbSession) (request : QueryRequest)
    (elapsedDisplay : String) (durationMs : Nat) :
    Except String QueryResult × Option DbSession × List String :=
  match state with
  | Option.none => (.error "Not connected to database", Option.none, [])
  | some db =>
    let r := DbConnection.execute_query db elapsedDisplay durationMs request.sql
      request.plan_type
    (r.fst, some db, r.snd)

/-! ## History store (`commands.rs:149-179`, `types.rs:67-88`)

`DateTime<Utc>` timestamps are opaque to the capping logic and are
modelled as strings. -/

/-- types.rs:67-76. -/
structure QueryHistoryEntry where
  id : String
  sql : String
  connection_id : String
  connection_name : String
  executed_at : String
  duration_ms : Nat
  success : Bool
  error : Option String
deriving DecidableEq

/-- types.rs:80-88. -/
structure PlanHistoryEntry where
  id : String
  query_id : String
  plan_xml : String
  plan_type : String
  executed_at : String
  connection_id : String
  sql_preview : String
deriving DecidableEq

/-- commands.rs:149-160: prepend the entry, truncate to 100.  The input is
the stored list read from the document store, the output what is written
back. -/
def save_query_history_entry (history : List QueryHistoryEntry)
    (entry : QueryHistoryEntry) : List QueryHistoryEntry :=
  let h := entry :: history
  if h.length > 100 then h.take 100 else h

/-- commands.rs:168-179: prepend the entry, truncate to 50. -/
def save_plan_history_entry (history : List PlanHistoryEntry)
    (entry : PlanHistoryEntry) : List PlanHistoryEntry :=
  let h := entry :: history
  if h.length > 50 then h.take 50 else h

/-! ## Password encryption (`encryption.rs`)

The repository's own contribution is the framing: derive a 32-byte key
from machine identity (modelled as an opaque key input), draw a 12-byte
nonce (an input), encrypt with AES-256-GCM (external `aes-gcm` crate),
prepend the nonce, base64-encode (external `base64` crate).  The two
external crates are modelled as a primitive bundle together with the
contract their documentation gives; the UTF-8 codec of `String::as_bytes`
and `String::from_utf8` is modelled concretely below. -/

/-- A byte. -/
abbrev Byte := Fin 256

/-- Every Unicode scalar value is below `0x110000`. -/
theorem charToNat_lt (c : Char) : c.toNat < 1114112 := by
  rcases c.valid with h | ⟨_, h2⟩
  · exact Nat.lt_trans h (by decide)
  · exact h2

/-- UTF-8 encoding of one scalar value (`str::as_bytes`). -/
def utf8EncodeChar (c : Char) : List Byte :=
  let n := c.toNat
  if h : n < 128 then [⟨n, by omega⟩]
  else if h2 : n < 2048 then
    [⟨192 + n / 64, by omega⟩, ⟨128 + n % 64, by omega⟩]
  else if h3 : n < 65536 then
    [⟨224 + n / 4096, by omega⟩, ⟨128 + (n / 64) % 64, by omega⟩, ⟨128 + n % 64, by omega⟩]
  else
    [⟨240 + n / 262144, by have := charToNat_lt c; omega⟩,
     ⟨128 + (n / 4096) % 64, by omega⟩,
     ⟨128 + (n / 64) % 64, by omega⟩,
     ⟨128 + n % 64, by omega⟩]

/-- UTF-8 encoding of a character list. -/
def utf8EncodeList : List Char → List Byte
  | [] => []
  | c :: t => utf8EncodeChar c ++ utf8EncodeList t

/-- Model of `String::as_bytes`. -/
def utf8Encode (s : String) : List Byte := utf8EncodeList s.data

/-- Streaming UTF-8 decoder state machine: the state holds the partially
accumulated scalar value and the number of continuation bytes still
expected.  Partial model of `String::from_utf8` decoding: it accepts at
least every output of `utf8Encode` and reconstructs the scalar values. -/
def utf8DecodeAux : Option (Nat × Nat) → List Byte → Option (List Char)
  | Option.none, [] => some []
  | some _, [] => Option.none
  | Option.none, b :: rest =>
    if b.val < 128 then (utf8DecodeAux Option.none rest).map (Char.ofNat b.val :: ·)
    else if b.val < 192 then Option.none
    else if b.val < 224 then utf8DecodeAux (some (b.val - 192, 1)) rest
    else if b.val < 240 then utf8DecodeAux (some (b.val - 224, 2)) rest
    else utf8DecodeAux (some (b.val - 240, 3)) rest
  | some (acc, k), b :: rest =>
    if 128 ≤ b.val ∧ b.val < 192 then
      if k = 1 then
        (utf8DecodeAux Option.none rest).map (Char.ofNat (acc * 64 + (b.val - 128)) :: ·)
      else utf8DecodeAux (some (acc * 64 + (b.val - 128), k - 1)) rest
    else Option.none

/-- Model of `String::from_utf8` (on its success/failure structure). -/
def utf8Decode (bs : List Byte) : Option (List Char) := utf8DecodeAux Option.none bs

/-- The external `base64` and `aes-gcm` crate primitives used by
`encryption.rs`.  `aeadEncrypt key nonce plaintext` returns
ciphertext-with-appended-tag; `aeadDecrypt` inverts it or fails. -/
structure CryptoPrims where
  b64encode : List Byte → String
  b64decode : String → Except String (List Byte)
  aeadEncrypt : List Byte → List Byte → List Byte → List Byte
  aeadDecrypt : List Byte → List Byte → List Byte → Except String (List Byte)

/-- The documented contract of those crates: base64 decoding inverts
encoding, AEAD decryption inverts encryption under the same key and
nonce, the tag adds 16 bytes, and a buffer shorter than the tag fails
with the crate's generic error. -/
structure CryptoPrimsOk (P : CryptoPrims) : Prop where
  b64_roundtrip : ∀ bs, P.b64decode (P.b64encode bs) = .ok bs
  aead_roundtrip : ∀ k n m, P.aeadDecrypt k n (P.aeadEncrypt k n m) = .ok m
  aead_len : ∀ k n m, (P.aeadEncrypt k n m).length = m.length + 16
  aead_short : ∀ k n ct, ct.length < 16 → P.aeadDecrypt k n ct = .error "aead::Error"

/-- encryption.rs:24-39: encrypt, prepend the nonce, base64-encode.  The
key (derived from machine identity) and the freshly drawn nonce are
inputs. -/
def encrypt_password (P : CryptoPrims) (key nonce_bytes : List Byte)
    (password : String) : Except String String :=
  if key.length ≠ 32 then .error "Invalid Length"
  else
    .ok (P.b64encode (nonce_bytes ++ P.aeadEncrypt key nonce_bytes (utf8Encode password)))

/-- encryption.rs:41-58: base64-decode, split the 12-byte nonce, decrypt,
re-read as UTF-8. -/
def decrypt_password (P : CryptoPrims) (key : List Byte) (encrypted : String) :
    Except String String :=
  if key.length ≠ 32 then .error "Invalid Length"
  else
    match P.b64decode encrypted with
    | .error e => .error e
    | .ok combined =>
      if combined.length < 12 then .error "Invalid encrypted data"
      else
        match P.aeadDecrypt key (combined.take 12) (combined.drop 12) with
        | .error e => .error e
        | .ok pt =>
          match utf8Decode pt with
          | some cs => .ok ⟨cs⟩
          | Option.none => .error "invalid utf-8 sequence"

/-- The encrypted blob `encrypt_password` produces for a 32-byte key. -/
def encryptedBlob (P : CryptoPrims) (key nonce_bytes : List Byte)
    (password : String) : String :=
  P.b64encode (nonce_bytes ++ P.aeadEncrypt key nonce_bytes (utf8Encode password))




theorem utf8Decode_encodeChar_append (c : Char) (bs : List Byte) :
    utf8DecodeAux Option.none (utf8EncodeChar c ++ bs) =
      (utf8DecodeAux Option.none bs).map (c :: ·) := by
  have hofn : Char.ofNat c.toNat = c := Char.ofNat_toNat c
  have hlt : c.toNat < 1114112 := charToNat_lt c
  by_cases h1 : c.toNat < 128
  · unfold utf8EncodeChar
    rw [dif_pos h1, List.cons_append, List.nil_append, utf8DecodeAux]
    dsimp only
    rw [if_pos h1, hofn]
  · by_cases h2 : c.toNat < 2048
    · unfold utf8EncodeChar
      rw [dif_neg h1, dif_pos h2, List.cons_append, List.cons_append, List.nil_append,
        utf8DecodeAux]
      dsimp only
      rw [if_neg (by omega), if_neg (by omega), if_pos (by omega), utf8DecodeAux]
      dsimp only
      rw [if_pos (by exact ⟨by omega, by omega⟩), if_pos rfl]
      have e : (192 + c.toNat / 64 - 192) * 64 + (128 + c.toNat % 64 - 128) = c.toNat := by
        omega
      rw [e, hofn]
    · by_cases h3 : c.toNat < 65536
      · unfold utf8EncodeChar
        rw [dif_neg h1, dif_neg h2, dif_pos h3, List.cons_append, List.cons_append,
          List.cons_append, List.nil_append, utf8DecodeAux]
        dsimp only
        rw [if_neg (by omega), if_neg (by omega), if_neg (by omega), if_pos (by omega),
          utf8DecodeAux]
        dsimp only
        rw [if_pos (by exact ⟨by omega, by omega⟩), if_neg (by omega), utf8DecodeAux]
        dsimp only
        rw [if_pos (by exact ⟨by omega, by omega⟩), if_pos rfl]
        have e : ((224 + c.toNat / 4096 - 224) * 64 + (128 + c.toNat / 64 % 64 - 128)) * 64 +
            (128 + c.toNat % 64 - 128) = c.toNat := by omega
        rw [e, hofn]
      · unfold utf8EncodeChar
        rw [dif_neg h1, dif_neg h2, dif_neg h3, List.cons_append, List.cons_append,
          List.cons_append, List.cons_append, List.nil_append, utf8DecodeAux]
        dsimp only
        rw [if_neg (by omega), if_neg (by omega), if_neg (by omega), if_neg (by omega),
          utf8DecodeAux]
        dsimp only
        rw [if_pos (by exact ⟨by omega, by omega⟩), if_neg (by omega), utf8DecodeAux]
        dsimp only
        rw [if_pos (by exact ⟨by omega, by omega⟩), if_neg (by omega), utf8DecodeAux]
        dsimp only
        rw [if_pos (by exact ⟨by omega, by omega⟩), if_pos rfl]
        have e : (((240 + c.toNat / 262144 - 240) * 64 + (128 + c.toNat / 4096 % 64 - 128)) *
            64 + (128 + c.toNat / 64 % 64 - 128)) * 64 + (128 + c.toNat % 64 - 128) =
            c.toNat := by omega
        rw [e, hofn]

theorem utf8Decode_encodeList (l : List Char) :
    utf8DecodeAux Option.none (utf8EncodeList l) = some l := by
  induction l with
  | nil => rfl
  | cons c t ih =>
    rw [utf8EncodeList, utf8Decode_encodeChar_append, ih]
    rfl

/-- Decoding inverts encoding for every string. -/
theorem utf8Decode_encode (s : String) : utf8Decode (utf8Encode s) = some s.data :=
  utf8Decode_encodeList s.data

/-! A reference instance of the crate primitives satisfying the crate
contract, used to evaluate the encryption framing on concrete inputs. -/

/-- Reference byte-to-text encoding (one character per byte). -/
def refB64encode (bs : List Byte) : String := ⟨bs.map (fun b => Char.ofNat b.val)⟩

/-- Reference decoding for `refB64encode`. -/
def refB64decodeList : List Char → Except String (List Byte)
  | [] => .ok []
  | c :: t =>
    match refB64decodeList t with
    | .error e => .error e
    | .ok bs =>
      if h : c.toNat < 256 then .ok (⟨c.toNat, h⟩ :: bs) else .error "Invalid byte"

/-- Reference model of base64 decoding. -/
def refB64decode (s : String) : Except String (List Byte) := refB64decodeList s.data

/-- Reference AEAD encryption: append a 16-byte tag. -/
def refAeadEncrypt (_key _nonce m : List Byte) : List Byte :=
  m ++ List.replicate 16 (0 : Byte)

/-- Reference AEAD decryption: reject buffers shorter than the tag,
otherwise strip the tag. -/
def refAeadDecrypt (_key _nonce ct : List Byte) : Except String (List Byte) :=
  if ct.length < 16 then .error "aead::Error" else .ok (ct.take (ct.length - 16))

/-- The reference primitive bundle. -/
def refPrims : CryptoPrims :=
  { b64encode := refB64encode, b64decode := refB64decode,
    aeadEncrypt := refAeadEncrypt, aeadDecrypt := refAeadDecrypt }

theorem charToNat_ofNat_of_lt (n : Nat) (h : n < 55296) : (Char.ofNat n).toNat = n := by
  rw [Char.ofNat, dif_pos (Or.inl h)]
  rfl

theorem refB64_roundtrip (bs : List Byte) : refB64decode (refB64encode bs) = .ok bs := by
  show refB64decodeList (bs.map fun b => Char.ofNat b.val) = .ok bs
  induction bs with
  | nil => rfl
  | cons b t ih =>
    rw [List.map_cons, refB64decodeList, ih]
    dsimp only
    have hv : b.val < 256 := b.isLt
    have hb : (Char.ofNat b.val).toNat = b.val := charToNat_ofNat_of_lt b.val (by omega)
    rw [dif_pos (by omega : (Char.ofNat b.val).toNat < 256)]
    congr 1
    congr 1
    exact Fin.ext hb

theorem refAead_roundtrip (k n m : List Byte) :
    refAeadDecrypt k n (refAeadEncrypt k n m) = .ok m := by
  unfold refAeadEncrypt refAeadDecrypt
  rw [if_neg (by simp)]
  congr 1
  have hlen : (m ++ List.replicate 16 (0 : Byte)).length - 16 = m.length := by simp
  rw [hlen]
  exact List.take_left m _

theorem refPrims_ok : CryptoPrimsOk refPrims :=
  { b64_roundtrip := refB64_roundtrip,
    aead_roundtrip := refAead_roundtrip,
    aead_len := fun _ _ m => by simp [refPrims, refAeadEncrypt],
    aead_short := fun _ _ ct h => by simp [refPrims, refAeadDecrypt, if_pos h] }

/-! ## Helper lemmas about the None-mode assembly and the plan scan -/

theorem extract_row_values_length (row : Row) :
    (extract_row_values row).length = row.columns.length := by
  simp [extract_row_values]

theorem noneRowStep_fold (rs : List Row) (rows : List (List JsonValue)) (n : Int) :
    rs.foldl noneRowStep (rows, n) =
      (rows ++ rs.map extract_row_values, n + rs.length) := by
  induction rs generalizing rows n with
  | nil => simp
  | cons r t ih =>
    rw [List.foldl_cons]
    show t.foldl noneRowStep (rows ++ [extract_row_values r], n + 1) = _
    rw [ih]
    simp only [Prod.mk.injEq, List.length_cons]
    refine ⟨by simp, by push_cast; omega⟩

theorem assembleNone_fold (sets : List (List Row)) (cols : List String)
    (rows : List (List JsonValue)) (n : Int) :
    sets.foldl noneSetStep (cols, rows, n) =
      (if cols.isEmpty then capturedColumns sets else cols,
       rows ++ sets.flatten.map extract_row_values,
       n + (sets.flatten.length : Int)) := by
  induction sets generalizing cols rows n with
  | nil =>
    cases cols <;> simp [capturedColumns]
  | cons rs rest ih =>
    cases rs with
    | nil =>
      rw [List.foldl_cons]
      show rest.foldl noneSetStep (cols, rows, n) = _
      rw [ih]
      simp [capturedColumns]
    | cons r0 rt =>
      rw [List.foldl_cons]
      show rest.foldl noneSetStep
        (noneSetStep (cols, rows, n) (r0 :: rt)) = _
      rw [noneSetStep]
      dsimp only
      rw [noneRowStep_fold, ih]
      by_cases hz : cols.isEmpty
      · by_cases hz0 : r0.columns.isEmpty
        · simp [hz, hz0, capturedColumns, List.append_assoc]
          try push_cast
          try omega
        · simp [hz, hz0, capturedColumns, List.append_assoc]
          try push_cast
          try omega
      · simp [hz, capturedColumns, List.append_assoc]
        try push_cast
        try omega

theorem assembleNone_eq (sets : List (List Row)) :
    assembleNone sets =
      (capturedColumns sets, sets.flatten.map extract_row_values,
        (sets.flatten.length : Int)) := by
  unfold assembleNone
  rw [assembleNone_fold]
  simp

theorem capturedColumns_spec (sets : List (List Row)) (W : Nat)
    (hW : ∀ rs ∈ sets, ∀ row ∈ rs, row.columns.length = W) :
    capturedColumns sets = [] ∨ (capturedColumns sets).length = W := by
  induction sets with
  | nil => exact Or.inl rfl
  | cons rs rest ih =>
    have hrest : ∀ r ∈ rest, ∀ row ∈ r, row.columns.length = W := by
      intro r hr row hrow
      exact hW r (List.mem_cons_of_mem _ hr) row hrow
    cases rs with
    | nil => exact ih hrest
    | cons r0 rt =>
      rw [capturedColumns]
      by_cases hz : r0.columns.isEmpty
      · rw [if_pos hz]
        exact ih hrest
      · rw [if_neg hz]
        exact Or.inr (hW _ (List.mem_cons_self _ _) r0 (List.mem_cons_self _ _))

theorem capturedColumns_length (sets : List (List Row)) (W : Nat)
    (hW : ∀ rs ∈ sets, ∀ row ∈ rs, row.columns.length = W)
    (hne : sets.flatten ≠ []) :
    (capturedColumns sets).length = W := by
  induction sets with
  | nil => simp at hne
  | cons rs rest ih =>
    have hrest : ∀ r ∈ rest, ∀ row ∈ r, row.columns.length = W := by
      intro r hr row hrow
      exact hW r (List.mem_cons_of_mem _ hr) row hrow
    cases rs with
    | nil =>
      rw [capturedColumns]
      exact ih hrest (by simpa using hne)
    | cons r0 rt =>
      have h0 : r0.columns.length = W :=
        hW _ (List.mem_cons_self _ _) r0 (List.mem_cons_self _ _)
      rw [capturedColumns]
      by_cases hz : r0.columns.isEmpty
      · rw [if_pos hz]
        have hW0 : W = 0 := by
          rw [← h0]
          simp [List.isEmpty_iff] at hz
          simp [hz]
        rcases capturedColumns_spec rest W hrest with hc | hc
        · simp [hc, hW0]
        · exact hc
      · rw [if_neg hz]
        exact h0

/-- One plan-scan update step (the inner loop body of `scanPlan`). -/
def planUpd (a : Option String) (row : Row) : Option String :=
  match rowTryStr row 0 with
  | some (some xml) => some xml
  | _ => a

theorem scanPlan_eq_foldl (sets : List (List Row)) :
    scanPlan sets = sets.flatten.foldl planUpd Option.none := by
  unfold scanPlan
  rw [List.foldl_flatten]
  rfl

theorem foldl_planUpd_eq (l : List Row) (acc : Option String) :
    l.foldl planUpd acc =
      match l.reverse.findSome? firstCellText with
      | some x => some x
      | Option.none => acc := by
  induction l generalizing acc with
  | nil => rfl
  | cons r t ih =>
    rw [List.foldl_cons, ih, List.reverse_cons, List.findSome?_append]
    cases hfs : t.reverse.findSome? firstCellText with
    | some x => rfl
    | none =>
      dsimp only
      rw [Option.none_or, List.findSome?_cons]
      unfold planUpd firstCellText
      rcases rowTryStr r 0 with _ | (_ | x) <;> rfl

/-- The scan keeps the LAST present text in traversal order: it equals
the first hit on the reversed row list. -/
theorem scanPlan_eq_last (sets : List (List Row)) :
    scanPlan sets = sets.flatten.reverse.findSome? firstCellText := by
  rw [scanPlan_eq_foldl, foldl_planUpd_eq]
  cases sets.flatten.reverse.findSome? firstCellText <;> rfl

/-! ## Inversion of the orchestrator's success paths -/

theorem executeNone_inv (db : DbSession) (ed : String) (dm : Nat) (sql : String)
    (res : QueryResult)
    (h : (DbConnection.execute_query db ed dm sql PlanType.None).fst = .ok res) :
    ∃ sql2 sets, (rewrite_query_with_date_cast db sql).fst = .ok sql2 ∧
      db sql2 = .ok sets ∧
      res.columns = (assembleNone sets).1 ∧
      res.rows = (assembleNone sets).2.1 ∧
      res.rows_affected = (assembleNone sets).2.2 := by
  unfold DbConnection.execute_query at h
  rcases hp : rewrite_query_with_date_cast db sql with ⟨r, tr⟩
  rw [hp] at h
  cases r with
  | error e => simp at h
  | ok sql2 =>
    dsimp only at h
    unfold noneBranch at h
    cases hdb : db sql2 with
    | submitErr e => rw [hdb] at h; simp at h
    | retrieveErr e => rw [hdb] at h; simp at h
    | ok sets =>
      rw [hdb] at h
      dsimp only at h
      injection h with h2
      subst h2
      exact ⟨sql2, sets, rfl, hdb, rfl, rfl, rfl⟩

theorem executeEstimated_inv (db : DbSession) (ed : String) (dm : Nat) (sql : String)
    (res : QueryResult)
    (h : (DbConnection.execute_query db ed dm sql PlanType.Estimated).fst = .ok res) :
    ∃ sql2 sets, (rewrite_query_with_date_cast db sql).fst = .ok sql2 ∧
      db sql2 = .ok sets ∧ res.plan_xml = scanPlan sets ∧
      res.rows = [] ∧ res.rows_affected = 0 := by
  unfold DbConnection.execute_query at h
  rcases hp : rewrite_query_with_date_cast db sql with ⟨r, tr⟩
  rw [hp] at h
  cases r with
  | error e => simp at h
  | ok sql2 =>
    dsimp only at h
    unfold estimatedBranch at h
    cases hon : db "SET SHOWPLAN_XML ON" with
    | submitErr e => rw [hon] at h; simp at h
    | retrieveErr e => rw [hon] at h; simp at h
    | ok onsets =>
      rw [hon] at h
      dsimp only at h
      cases hdb : db sql2 with
      | submitErr e => rw [hdb] at h; simp at h
      | retrieveErr e => rw [hdb] at h; simp at h
      | ok sets =>
        rw [hdb] at h
        dsimp only at h
        cases hoff : db "SET SHOWPLAN_XML OFF" with
        | submitErr e => rw [hoff] at h; simp at h
        | retrieveErr e => rw [hoff] at h; simp at h
        | ok offsets =>
          rw [hoff] at h
          dsimp only at h
          injection h with h2
          subst h2
          exact ⟨sql2, sets, rfl, hdb, rfl, rfl, rfl⟩

/-! ## Claim theorems -/

/-- A session whose inner query fails at submission (Estimated mode). -/
def c1db : DbSession := fun s => if s = "q" then .submitErr "boom" else .ok []

/-- C1 (code bug): in Estimated mode, when the inner query submission
fails, `execute_query` propagates the error immediately and never issues
`SET SHOWPLAN_XML OFF`: the unconditional cleanup toggle the
specification requires is skipped on the failure path. -/
theorem C1_estimated_off_skipped_on_failure :
    DbConnection.execute_query c1db "" 0 "q" PlanType.Estimated =
      (.error "Query failed: boom", ["SET SHOWPLAN_XML ON", "q"]) ∧
    "SET SHOWPLAN_XML OFF" ∉
      (DbConnection.execute_query c1db "" 0 "q" PlanType.Estimated).snd := by
  refine ⟨by rfl, by decide⟩

/-- C2: for every cell of every decoded row, the Value Decoder follows the
fixed probe order text, 32-bit integer, 64-bit integer, 16-bit integer,
single float, double float, unsigned byte, boolean, date/time, unique
identifier; it takes the first probe reporting a present value, a
present-but-null report short-circuits to the null variant, and when all
probes mismatch it falls back to the placeholder naming the column. -/
theorem C2_probe_order (row : Row) :
    extract_row_values row =
      (List.range row.columns.length).map
        (fun i => spec_decode_cell (cellAt row i) (row.columns.getD i "")) := by
  unfold extract_row_values
  exact congrArg
    (fun f => List.map f (List.range row.columns.length))
    (funext fun i => decode_cell_eq_spec (cellAt row i) (row.columns.getD i ""))

/-- A row whose first cell is the text "A". -/
def rowA : Row := { columns := ["p"], cells := [{ tryStr := some (some "A") }] }

/-- A row whose first cell is the text "B". -/
def rowB : Row := { columns := ["p"], cells := [{ tryStr := some (some "B") }] }

/-- A session answering the Estimated-mode query with two plan rows. -/
def c3db : DbSession := fun s => if s = "q" then .ok [[rowA, rowB]] else .ok []

/-- C3 (counterexample): in Estimated mode with one result set holding two
rows whose first cells decode to "A" and "B", the returned plan document
is "B" — the last match — although the first cell of the first row of the
first result set is "A". -/
theorem C3_counterexample :
    (DbConnection.execute_query c3db "" 0 "q" PlanType.Estimated).fst.map
        (fun r => r.plan_xml) = .ok (some "B") ∧
    firstCellText rowA = some "A" ∧
    (some "B" : Option String) ≠ some "A" :=
  ⟨by rfl, by rfl, by decide⟩

/-- C3 (amended): on Estimated-mode success the plan document returned is
the first cell of the LAST row — across all result sets in traversal
order — whose first cell yields a present text value. -/
theorem C3_plan_is_last_text_cell (db : DbSession) (ed : String) (dm : Nat)
    (sql sql2 : String) (sets : List (List Row)) (res : QueryResult)
    (hrw : (rewrite_query_with_date_cast db sql).fst = .ok sql2)
    (hdb : db sql2 = .ok sets)
    (h : (DbConnection.execute_query db ed dm sql PlanType.Estimated).fst = .ok res) :
    res.plan_xml = sets.flatten.reverse.findSome? firstCellText := by
  obtain ⟨s2, st, h1, h2, h3, _, _⟩ := executeEstimated_inv db ed dm sql res h
  have hs : s2 = sql2 := Except.ok.inj (h1.symm.trans hrw)
  subst hs
  have hst : st = sets := by injection h2.symm.trans hdb
  subst hst
  rw [h3, scanPlan_eq_last]

/-- The Estimated-mode result `c3db` produces for the query `q`. -/
def c3res : QueryResult :=
  { columns := [], rows := [],
    messages := ["Estimated execution plan generated.", timeMsg ""],
    plan_xml := some "B", duration_ms := 0, rows_affected := 0 }

theorem C3_witness :
    c3res.plan_xml =
      ([[rowA, rowB]] : List (List Row)).flatten.reverse.findSome? firstCellText :=
  C3_plan_is_last_text_cell c3db "" 0 "q" "q" [[rowA, rowB]] c3res
    (by rfl) (by rfl) (by rfl)

/-- A width-1 row. -/
def rowW1 : Row := { columns := ["a"], cells := [{ tryStr := some (some "x") }] }

/-- A width-2 row. -/
def rowW2 : Row :=
  { columns := ["a", "b"],
    cells := [{ tryStr := some (some "y") }, { tryStr := some (some "z") }] }

/-- A session returning two result sets of different widths. -/
def c4db : DbSession := fun s => if s = "q" then .ok [[rowW1], [rowW2]] else .ok []

/-- C4 (counterexample): with two result sets of widths 1 and 2, the
successful None-mode result has one column name while its second row
holds two values — `len(columns) == len(row)` fails for that row. -/
theorem C4_counterexample :
    (DbConnection.execute_query c4db "" 0 "q" PlanType.None).fst.map
      (fun r => (r.columns.length, r.rows.map List.length)) = .ok (1, [1, 2]) ∧
    (2 : Nat) ≠ 1 :=
  ⟨by rfl, by decide⟩

/-- C4 (amended): every decoded row has exactly as many values as its own
result set's column count; hence when all rows across all returned result
sets share one column count — in particular whenever the server returns a
single result set — every row of a successful None-mode result has
exactly `len(columns)` values. -/
theorem C4_uniform_width (db : DbSession) (ed : String) (dm : Nat)
    (sql sql2 : String) (sets : List (List Row)) (W : Nat) (res : QueryResult)
    (hrw : (rewrite_query_with_date_cast db sql).fst = .ok sql2)
    (hdb : db sql2 = .ok sets)
    (hW : ∀ rs ∈ sets, ∀ row ∈ rs, row.columns.length = W)
    (h : (DbConnection.execute_query db ed dm sql PlanType.None).fst = .ok res) :
    ∀ r ∈ res.rows, r.length = res.columns.length := by
  obtain ⟨s2, st, h1, h2, hc, hr, _⟩ := executeNone_inv db ed dm sql res h
  have hs : s2 = sql2 := Except.ok.inj (h1.symm.trans hrw)
  have hst : st = sets := by
    rw [hs] at h2
    injection h2.symm.trans hdb
  rw [assembleNone_eq] at hc hr
  dsimp only at hc hr
  rw [hst] at hc hr
  intro r hrmem
  rw [hr] at hrmem
  rcases List.mem_map.mp hrmem with ⟨row, hrow, hre⟩
  have hrowW : row.columns.length = W := by
    rcases List.mem_flatten.mp hrow with ⟨rs, hrs, hrowrs⟩
    exact hW rs hrs row hrowrs
  have hflat_ne : sets.flatten ≠ [] := by
    intro hnil
    rw [hnil] at hrow
    simp at hrow
  rw [← hre, extract_row_values_length, hrowW, hc,
    capturedColumns_length sets W hW hflat_ne]

/-- A session returning two width-1 result sets. -/
def c4wdb : DbSession := fun s => if s = "q" then .ok [[rowW1], [rowW1]] else .ok []

/-- The None-mode result `c4wdb` produces for the query `q`. -/
def c4wres : QueryResult :=
  { columns := ["a"], rows := [[.str "x"], [.str "x"]],
    messages := ["Query executed. 2 row(s) returned.", timeMsg ""],
    plan_xml := Option.none, duration_ms := 0, rows_affected := 2 }

theorem C4_witness :
    ([JsonValue.str "x"] : List JsonValue).length = c4wres.columns.length :=
  C4_uniform_width c4wdb "" 0 "q" "q" [[rowW1], [rowW1]] 1 c4wres
    (by rfl) (by rfl) (by decide) (by rfl) [JsonValue.str "x"] (by decide)

/-- C5: in None mode every successful result counts exactly its decoded
rows: `rows_affected == len(rows)`. -/
theorem C5_rows_affected (db : DbSession) (ed : String) (dm : Nat) (sql : String)
    (res : QueryResult)
    (h : (DbConnection.execute_query db ed dm sql PlanType.None).fst = .ok res) :
    res.rows_affected = (res.rows.length : Int) := by
  obtain ⟨s2, st, _, _, _, hr, ha⟩ := executeNone_inv db ed dm sql res h
  rw [assembleNone_eq] at hr ha
  dsimp only at hr ha
  rw [ha, hr, List.length_map]

theorem C5_witness : c4wres.rows_affected = (c4wres.rows.length : Int) :=
  C5_rows_affected c4wdb "" 0 "q" c4wres (by rfl)

/-- C10: with no stored connection — never connected or after
`disconnect_db` cleared it — the `execute_query` command fails with
"Not connected to database", submits no statement to any server, and
leaves the stored connection state unchanged. -/
theorem C10_not_connected (request : QueryRequest) (ed : String) (dm : Nat) :
    Commands.execute_query Option.none request ed dm =
      (.error "Not connected to database", Option.none, []) := rfl

/-- C6: the rewriter is best-effort — it never propagates a failure
(every path returns `.ok`), and it returns the original SQL unchanged
when the shape does not match, when the catalog metadata query fails
(at submission or at retrieval), or when no column of the resolved table
needs casting. -/
theorem C6_rewrite_best_effort (db : DbSession) (sql : String) :
    (∃ out, (rewrite_query_with_date_cast db sql).fst = .ok out) ∧
    (has_select_star_from sql = false →
      (rewrite_query_with_date_cast db sql).fst = .ok sql) ∧
    (∀ tn, extracted_table sql = some tn →
      outcomeFails (db (metadata_query_for tn)) = true →
      (rewrite_query_with_date_cast db sql).fst = .ok sql) ∧
    (∀ tn sets, extracted_table sql = some tn →
      db (metadata_query_for tn) = .ok sets →
      (processColumns sets).2 = false →
      (rewrite_query_with_date_cast db sql).fst = .ok sql) := by
  refine ⟨?_, ?_, ?_, ?_⟩
  · unfold rewrite_query_with_date_cast
    split
    · split
      · exact ⟨sql, rfl⟩
      · split
        · exact ⟨sql, rfl⟩
        · exact ⟨sql, rfl⟩
        · dsimp only
          split

          · split
            · exact ⟨sql, rfl⟩
            · exact ⟨_, rfl⟩
          · exact ⟨sql, rfl⟩
    · exact ⟨sql, rfl⟩
  · intro hshape
    unfold rewrite_query_with_date_cast
    rw [if_neg (by simp [hshape])]
  · intro tn htn hfail
    unfold rewrite_query_with_date_cast
    by_cases hshape : has_select_star_from sql
    · rw [if_pos hshape, htn]
      dsimp only
      cases hq : db (metadata_query_for tn) with
      | ok sets => rw [hq] at hfail; simp [outcomeFails] at hfail
      | submitErr e => rfl
      | retrieveErr e => rfl
    · rw [if_neg hshape]
  · intro tn sets htn hq hnc
    unfold rewrite_query_with_date_cast
    by_cases hshape : has_select_star_from sql
    · rw [if_pos hshape, htn]
      dsimp only
      rw [hq]
      dsimp only
      rw [if_neg (by simp [hnc])]
    · rw [if_neg hshape]

/-- A session that fails every statement at submission. -/
def c6db : DbSession := fun _ => .submitErr "x"

theorem C6_witness :
    (rewrite_query_with_date_cast c6db "SELECT * FROM T").fst =
      .ok "SELECT * FROM T" :=
  (C6_rewrite_best_effort c6db "SELECT * FROM T").2.2.1 "T" (by rfl) (by rfl)

/-- C7: under the crate contract, decrypting an encryption of any string —
empty or non-ASCII included — with the same derived key succeeds and
returns the original string. -/
theorem C7_roundtrip (P : CryptoPrims) (hP : CryptoPrimsOk P)
    (key nonce : List Byte) (s : String)
    (hkey : key.length = 32) (hnonce : nonce.length = 12) :
    encrypt_password P key nonce s = .ok (encryptedBlob P key nonce s) ∧
    decrypt_password P key (encryptedBlob P key nonce s) = .ok s := by
  constructor
  · unfold encrypt_password encryptedBlob
    rw [if_neg (by omega)]
  · unfold decrypt_password encryptedBlob
    rw [if_neg (by omega), hP.b64_roundtrip]
    dsimp only
    rw [if_neg (by simp [List.length_append]; omega)]
    have ht : (nonce ++ P.aeadEncrypt key nonce (utf8Encode s)).take 12 = nonce := by
      rw [← hnonce]
      exact List.take_left _ _
    have hd : (nonce ++ P.aeadEncrypt key nonce (utf8Encode s)).drop 12 =
        P.aeadEncrypt key nonce (utf8Encode s) := by
      rw [← hnonce]
      exact List.drop_left _ _
    rw [ht, hd, hP.aead_roundtrip]
    dsimp only
    rw [show utf8Decode (utf8Encode s) = some s.data from utf8Decode_encode s]

/-- A 32-byte key. -/
def key32 : List Byte := List.replicate 32 (0 : Byte)

/-- A 12-byte nonce. -/
def nonce12 : List Byte := List.replicate 12 (0 : Byte)

theorem C7_witness :
    encrypt_password refPrims key32 nonce12 "pé" =
      .ok (encryptedBlob refPrims key32 nonce12 "pé") ∧
    decrypt_password refPrims key32 (encryptedBlob refPrims key32 nonce12 "pé") =
      .ok "pé" :=
  C7_roundtrip refPrims refPrims_ok key32 nonce12 "pé" (by simp [key32]) (by simp [nonce12])

/-- C8 (amended): an input whose base64-decoded byte length is below the
NONCE length (12 bytes) fails with the "Invalid encrypted data"
condition; the guard in the code checks only the nonce length, not
nonce plus tag. -/
theorem C8_short_input (P : CryptoPrims) (key : List Byte) (enc : String)
    (bs : List Byte) (hkey : key.length = 32)
    (hdec : P.b64decode enc = .ok bs) (hlen : bs.length < 12) :
    decrypt_password P key enc = .error "Invalid encrypted data" := by
  unfold decrypt_password
  rw [if_neg (by omega), hdec]
  dsimp only
  rw [if_pos hlen]

theorem C8_witness :
    decrypt_password refPrims key32 (refPrims.b64encode (List.replicate 3 (0 : Byte))) =
      .error "Invalid encrypted data" :=
  C8_short_input refPrims key32 _ (List.replicate 3 (0 : Byte))
    (by simp [key32]) (refPrims_ok.b64_roundtrip _) (by simp)

/-- C8 (counterexample): a decoded input of length 12 is shorter than the
minimum nonce-plus-tag length (12 + 16 = 28), yet it passes the length
guard and fails inside the cipher with the crate's generic error — not
with the "Invalid encrypted data" condition the claim requires. -/
theorem C8_counterexample :
    decrypt_password refPrims key32 (refPrims.b64encode (List.replicate 12 (0 : Byte))) =
      .error "aead::Error" ∧
    refPrims.b64decode (refPrims.b64encode (List.replicate 12 (0 : Byte))) =
      .ok (List.replicate 12 (0 : Byte)) ∧
    (List.replicate 12 (0 : Byte)).length < 12 + 16 ∧
    ("aead::Error" : String) ≠ "Invalid encrypted data" := by
  refine ⟨by rfl, refPrims_ok.b64_roundtrip _, by simp, by decide⟩

/-- C9: after every history insert the stored query history holds at most
100 entries with the new entry first; inserting into a full 100-entry
store evicts the oldest so exactly 100 remain; plan history behaves the
same with cap 50. -/
theorem C9_history_capping (h : List QueryHistoryEntry) (e : QueryHistoryEntry)
    (hp : List PlanHistoryEntry) (ep : PlanHistoryEntry) :
    (save_query_history_entry h e).length ≤ 100 ∧
    (save_query_history_entry h e).head? = some e ∧
    (h.length = 100 →
      save_query_history_entry h e = e :: h.take 99 ∧
      (save_query_history_entry h e).length = 100) ∧
    (save_plan_history_entry hp ep).length ≤ 50 ∧
    (save_plan_history_entry hp ep).head? = some ep ∧
    (hp.length = 50 →
      save_plan_history_entry hp ep = ep :: hp.take 49 ∧
      (save_plan_history_entry hp ep).length = 50) := by
  unfold save_query_history_entry save_plan_history_entry
  refine ⟨?_, ?_, ?_, ?_, ?_, ?_⟩
  · by_cases hc : (e :: h).length > 100
    · rw [if_pos hc]
      simp [List.length_take]
    · rw [if_neg hc]
      simp at hc ⊢
      omega
  · by_cases hc : (e :: h).length > 100
    · rw [if_pos hc]
      rw [show (100 : Nat) = 99 + 1 from rfl, List.take_succ_cons]
      rfl
    · rw [if_neg hc]
      rfl
  · intro hlen
    have hc : (e :: h).length > 100 := by simp [hlen]
    rw [if_pos hc, show (100 : Nat) = 99 + 1 from rfl, List.take_succ_cons]
    refine ⟨rfl, ?_⟩
    simp [List.length_take, hlen]
  · by_cases hc : (ep :: hp).length > 50
    · rw [if_pos hc]
      simp [List.length_take]
    · rw [if_neg hc]
      simp at hc ⊢
      omega
  · by_cases hc : (ep :: hp).length > 50
    · rw [if_pos hc]
      rw [show (50 : Nat) = 49 + 1 from rfl, List.take_succ_cons]
      rfl
    · rw [if_neg hc]
      rfl
  · intro hlen
    have hc : (ep :: hp).length > 50 := by simp [hlen]
    rw [if_pos hc, show (50 : Nat) = 49 + 1 from rfl, List.take_succ_cons]
    refine ⟨rfl, ?_⟩
    simp [List.length_take, hlen]

/-- A query-history entry. -/
def qh0 : QueryHistoryEntry :=
  { id := "0", sql := "SELECT 1", connection_id := "c", connection_name := "n",
    executed_at := "t", duration_ms := 1, success := true, error := Option.none }

/-- Another query-history entry. -/
def qh1 : QueryHistoryEntry :=
  { id := "1", sql := "SELECT 2", connection_id := "c", connection_name := "n",
    executed_at := "t", duration_ms := 2, success := false, error := some "e" }

/-- A plan-history entry. -/
def ph0 : PlanHistoryEntry :=
  { id := "0", query_id := "q", plan_xml := "<x/>", plan_type := "Estimated",
    executed_at := "t", connection_id := "c", sql_preview := "SELECT 1" }

/-- Another plan-history entry. -/
def ph1 : PlanHistoryEntry :=
  { id := "1", query_id := "q", plan_xml := "<y/>", plan_type := "Actual",
    executed_at := "t", connection_id := "c", sql_preview := "SELECT 2" }

theorem C9_witness :
    save_query_history_entry (List.replicate 100 qh0) qh1 =
      qh1 :: (List.replicate 100 qh0).take 99 ∧
    save_plan_history_entry (List.replicate 50 ph0) ph1 =
      ph1 :: (List.replicate 50 ph0).take 49 :=
  ⟨((C9_history_capping (List.replicate 100 qh0) qh1 (List.replicate 50 ph0)
      ph1).2.2.1 (by simp)).1,
   ((C9_history_capping (List.replicate 100 qh0) qh1 (List.replicate 50 ph0)
      ph1).2.2.2.2.2 (by simp)).1⟩
